import Mathlib

/-!
Verification development for the PDF text-marker core
(`pdf_text_marker.py`): a rule-based line classifier
(`HierarchyDetector`) and a single-pass stateful marker inserter
(`TextMarker.mark_text`), together with configuration loading
(`load_config`) and the marker statistics scan (`_calculate_stats`).

The Python code is shallowly embedded:

* Python regular expressions are embedded as terms of a small `Regex`
  type, matched by Brzozowski derivatives. `re.match` corresponds to
  `Regex.headMatch` (match at the start of the string), `re.search`
  without a leading `^` anchor to `Regex.searchList`, and a pattern of
  the form `^R$` (with Python's `$` also matching just before one
  final newline) to `Regex.matchList` of `R` followed by an optional
  newline character.
* `\s` and `str.strip()` are modelled over the ASCII whitespace
  characters (space, tab, newline, carriage return, vertical tab,
  form feed); `\d`, `[A-Z]`, `str.upper()` and `str.isupper()` are
  modelled over ASCII, matching the documents the tool processes.
* Font sizes (Python floats) are modelled as exact rationals; the
  thresholds involved (12.0, 10.5, 10.0) and the comparison
  `title_words >= len(words) * 0.5` are exact in both models.
* The default `MarkerConfig` of the dataclass is inlined into the
  detector definitions, after the source's own practice of
  hard-coding the catalogue patterns inside `_matches_l1`,
  `_matches_l2` and `_matches_l3`.
-/

/-! ## Python string primitives -/

/-- Whitespace as matched by Python's `\s` and stripped by `str.strip()`,
restricted to ASCII. -/
def isPySpace (c : Char) : Bool :=
  c = ' ' || c = '\t' || c = '\n' || c = '\r' || c = '\x0b' || c = '\x0c'

/-- Uppercase ASCII letter, Python's case-sensitive `[A-Z]`. -/
def isUpperAZ (c : Char) : Bool :=
  'A' ≤ c && c ≤ 'Z'

/-- ASCII letter, what Python's `[A-Z]` matches under `re.IGNORECASE`. -/
def isLetterAZ (c : Char) : Bool :=
  ('A' ≤ c && c ≤ 'Z') || ('a' ≤ c && c ≤ 'z')

/-- Python's `str.strip()`: drop leading and trailing whitespace. -/
def pyStrip (s : String) : String :=
  String.mk (((s.toList.dropWhile isPySpace).reverse.dropWhile isPySpace).reverse)

/-- Python's `str.split()` with no argument: split on whitespace runs,
discarding empty words. -/
def pySplit (s : String) : List String :=
  (s.split isPySpace).filter (fun w => w ≠ "")

/-- Python's `str.isupper()` over ASCII: at least one cased character and
no lowercase cased character. -/
def pyIsUpper (s : String) : Bool :=
  s.toList.any isLetterAZ && !(s.toList.any (fun c => 'a' ≤ c && c ≤ 'z'))

/-- Python's `str.upper()` over ASCII. -/
def pyUpper (s : String) : String :=
  String.mk (s.toList.map Char.toUpper)

/-- Needle is a prefix of the haystack (both as character lists). -/
def listHasPre : List Char → List Char → Bool
  | [], _ => true
  | _ :: _, [] => false
  | a :: as, b :: bs => a == b && listHasPre as bs

/-- Needle occurs somewhere inside the haystack; Python's `needle in hay`. -/
def listHasSub : List Char → List Char → Bool
  | needle, [] => needle.isEmpty
  | needle, b :: bs => listHasPre needle (b :: bs) || listHasSub needle bs

/-- Python's substring test `needle in hay` on strings. -/
def strContains (hay needle : String) : Bool :=
  listHasSub needle.toList hay.toList

/-! ## Regular expressions via Brzozowski derivatives -/

/-- Regular expressions over characters, with arbitrary character
classes; enough to transcribe every pattern used by the source. -/
inductive Regex where
  | emp : Regex
  | eps : Regex
  | cls : (Char → Bool) → Regex
  | cat : Regex → Regex → Regex
  | alt : Regex → Regex → Regex
  | star : Regex → Regex

/-- The regex accepts the empty string. -/
def Regex.nullable : Regex → Bool
  | .emp => false
  | .eps => true
  | .cls _ => false
  | .cat a b => a.nullable && b.nullable
  | .alt a b => a.nullable || b.nullable
  | .star _ => true

/-- Brzozowski derivative with respect to one character. -/
def Regex.deriv : Regex → Char → Regex
  | .emp, _ => .emp
  | .eps, _ => .emp
  | .cls p, c => if p c then .eps else .emp
  | .cat a b, c =>
      if a.nullable then .alt (.cat (a.deriv c) b) (b.deriv c)
      else .cat (a.deriv c) b
  | .alt a b, c => .alt (a.deriv c) (b.deriv c)
  | .star r, c => .cat (r.deriv c) (.star r)

/-- The regex matches the whole character list (`re.fullmatch`). -/
def Regex.matchList : Regex → List Char → Bool
  | r, [] => r.nullable
  | r, c :: cs => (r.deriv c).matchList cs

/-- The regex matches some prefix of the list: Python's `re.match`. -/
def Regex.headMatch : Regex → List Char → Bool
  | r, [] => r.nullable
  | r, c :: cs => r.nullable || (r.deriv c).headMatch cs

/-- The regex matches starting at some position: Python's `re.search`
for a pattern with no `^` anchor. -/
def Regex.searchList : Regex → List Char → Bool
  | r, [] => r.nullable
  | r, c :: cs => r.headMatch (c :: cs) || r.searchList cs

/-- Single literal character. -/
def rchr (c : Char) : Regex := .cls (fun x => x == c)

/-- Single character, case-insensitively (`re.IGNORECASE`). -/
def rchrCI (c : Char) : Regex := .cls (fun x => x.toLower == c.toLower)

/-- Optional occurrence, `R?`. -/
def ropt (r : Regex) : Regex := .alt .eps r

/-- One or more occurrences, `R+`. -/
def rplus (r : Regex) : Regex := .cat r (.star r)

/-- Sequential composition of a list of regexes. -/
def rcat (rs : List Regex) : Regex := rs.foldr .cat .eps

/-- Exactly `n` occurrences, `R{n}`. -/
def rrep : Nat → Regex → Regex
  | 0, _ => .eps
  | n + 1, r => .cat r (rrep n r)

/-- Case-sensitive string literal. -/
def rstr (s : String) : Regex := rcat (s.toList.map rchr)

/-- Case-insensitive string literal. -/
def rstrCI (s : String) : Regex := rcat (s.toList.map rchrCI)

/-- Python's `\d`. -/
def rdigit : Regex := .cls Char.isDigit

/-- Python's `\s` (ASCII model). -/
def rspace : Regex := .cls isPySpace

/-- Python's `.`: any character except a newline. -/
def rdotany : Regex := .cls (fun c => !(c == '\n'))

/-- Python's `$` (without `re.MULTILINE`): end of string, or just before
one final newline. A pattern `R$` fullmatches `s` exactly when
`R(\n)?` does. -/
def dollarAnchor (r : Regex) : Regex := .cat r (ropt (rchr '\n'))

/-- Match of a `^R$` pattern against a whole string, as used by
`re.search`/`re.match` on the source's fully anchored patterns. -/
def anchoredMatch (r : Regex) (s : String) : Bool :=
  (dollarAnchor r).matchList s.toList

/-- Match of a `^R` pattern (no `$`) against a string: with `^` and no
`re.MULTILINE`, `re.search` and `re.match` both reduce to a match at
the start. -/
def headAnchoredMatch (r : Regex) (s : String) : Bool :=
  r.headMatch s.toList

/-- Unanchored `re.search` on a string. -/
def searchMatch (r : Regex) (s : String) : Bool :=
  r.searchList s.toList

/-! ## Data model -/

/-- One extracted line with layout metadata; the dataclass `TextLine`.
Vertical and horizontal offsets and font size are modelled as exact
rationals in place of Python floats. -/
structure TextLine where
  text : String
  page_num : Nat
  top : Rat
  left : Rat
  font_size : Rat
  is_bold : Bool
  line_num : Nat
deriving DecidableEq

/-- Classifier verdict of `HierarchyDetector.detect_level`; the source
returns one of the strings `L1`..`L4`, `CODE`, or `None`. -/
inductive HLevel where
  | L1 | L2 | L3 | L4 | CODE
deriving DecidableEq

/-- Marker name of a level, the string the source passes around. -/
def level_name : HLevel → String
  | .L1 => "L1"
  | .L2 => "L2"
  | .L3 => "L3"
  | .L4 => "L4"
  | .CODE => "CODE"

/-- Result of `HierarchyDetector.extract_code_info`, the dict with keys
`code`, `is_provisional`, `is_asterisked` and `full_match`. -/
structure CodeInfo where
  code : String
  is_provisional : Bool
  is_asterisked : Bool
  full_match : String
deriving DecidableEq

/-- The `current_hierarchy` dict of `mark_text`, one bound value per
tier `L1`..`L4`. -/
structure Hierarchy where
  l1 : String
  l2 : String
  l3 : String
  l4 : String
deriving DecidableEq

/-- Tier value by number 1..4 (0 otherwise empty), for stating the
nesting invariant. -/
def tierVal (h : Hierarchy) : Nat → String
  | 1 => h.l1
  | 2 => h.l2
  | 3 => h.l3
  | 4 => h.l4
  | _ => ""

/-- Numeric rank of a hierarchy level, `int(level[1])` in the source;
`CODE` gets rank 0 and never reaches the hierarchy-update branch. -/
def level_num : HLevel → Nat
  | .L1 => 1
  | .L2 => 2
  | .L3 => 3
  | .L4 => 4
  | .CODE => 0

/-! ## Default configuration data (the `MarkerConfig` dataclass)

The pattern fields hold the regex SOURCE strings exactly as written in
the dataclass (braces written with `\x7b`/`\x7d` escapes); the
detector functions below inline their compiled meaning. -/

/-- Configuration record mirroring the `MarkerConfig` dataclass. -/
structure MarkerConfig where
  l1_min_font_size : Rat
  l2_min_font_size : Rat
  l3_min_font_size : Rat
  l1_patterns : List String
  l2_patterns : List String
  l3_patterns : List String
  code_pattern : String
  code_with_fee_pattern : String
  provisional_marker : String
  asterisk_marker : String
  fee_pattern : String
  skip_patterns : List String
  content_start_patterns : List String
  min_line_length : Nat
  marker_format : String
  code_marker_format : String
deriving DecidableEq

/-- The built-in defaults of the `MarkerConfig` dataclass. -/
def defaultMarkerConfig : MarkerConfig where
  l1_min_font_size := 12
  l2_min_font_size := 21 / 2
  l3_min_font_size := 10
  l1_patterns :=
    ["^[A-Z][A-Z\\s\\-]+\\s*\\(\\d\x7b2\x7d(?:-\\d+)?\\)",
     "^[A-Z][A-Z\\s\\-]\x7b10,\x7d$",
     "^(?:VISITS|GENERAL|ANESTHESIA|INTEGUMENTARY|MUSCULOSKELETAL)",
     "^(?:RESPIRATORY|CARDIOVASCULAR|DIGESTIVE|URINARY)",
     "^(?:NERVOUS|ENDOCRINE|MATERNITY|LABORATORY)"]
  l2_patterns :=
    ["^[A-Z][a-z]+(?:\\s+[A-Z][a-z]+)*\\s*(?:Procedures?|Care|Visits?|Services?)",
     "^(?:Office|Hospital|Virtual|Chronic|Concomitant)",
     "^(?:Investigation|Incision|Excision|Repair)"]
  l3_patterns := ["^[A-Z][a-z]+(?:\\s+[A-Za-z]+)*$"]
  code_pattern := "^[~]?(\\d\x7b4\x7d)[\\*]?\\s+"
  code_with_fee_pattern := "^[~]?(\\d\x7b4\x7d)[\\*]?\\s+.+?\\.\x7b3,\x7d\\s*[\\d,]+\\.\\d\x7b2\x7d"
  provisional_marker := "~"
  asterisk_marker := "*"
  fee_pattern := "\\.\x7b3,\x7d\\s*([\\d,]+\\.\\d\x7b2\x7d)"
  skip_patterns :=
    ["^April 1,\\s*\\d\x7b4\x7d",
     "^[A-Z]-\\d+$",
     "^\\d\x7b1,3\x7d$",
     "^[ivxlcdm]+$",
     "^Table of Contents",
     "^\\f"]
  content_start_patterns :=
    ["RULES\\s+OF\\s+APPLICATION",
     "These benefits cannot be correctly interpreted"]
  min_line_length := 3
  marker_format := "«\x7btype\x7d:\x7bvalue\x7d»"
  code_marker_format := "«CODE:\x7bprefix\x7d\x7bcode\x7d\x7bsuffix\x7d»"

/-! ## Compiled pattern meanings (default configuration) -/

/-- Characters matched by `[\d,]`. -/
def isDigitComma (c : Char) : Bool := c.isDigit || c = ','

/-- Three or more occurrences, `R{3,}`. -/
def rdots3 : Regex := rcat [rchr '.', rchr '.', rchr '.', .star (rchr '.')]

/-- Fee amount tail `\s*[\d,]+\.\d{2}` shared by the fee patterns. -/
def rfeeAmount : Regex :=
  rcat [.star rspace, rplus (.cls isDigitComma), rchr '.', rdigit, rdigit]

/-- Compiled `fee_pattern = \.{3,}\s*([\d,]+\.\d{2})`, searched
unanchored (the capture group is irrelevant to a boolean search). -/
def fee_search (t : String) : Bool :=
  searchMatch (.cat rdots3 rfeeAmount) t

/-- Compiled `code_with_fee_pattern
`^[~]?(\d{4})[\*]?\s+.+?\.{3,}\s*[\d,]+\.\d{2}`, used via `re.match`;
the lazy `.+?` is equivalent to `.+` for a boolean match. -/
def code_with_fee_match (t : String) : Bool :=
  headAnchoredMatch
    (rcat [ropt (rchr '~'), rrep 4 rdigit, ropt (rchr '*'),
           rplus rspace, rplus rdotany, rdots3, rfeeAmount]) t

/-- Deterministic parse of the code head `[~]? (\d{4}) [\*]?`:
provisional flag, the four digits, asterisk flag, rest of the line.
No backtracking arises: `~` is not a digit and `*` is not whitespace. -/
def code_head : List Char → Option (Bool × String × Bool × List Char)
  | cs =>
    let (prov, cs1) :=
      match cs with
      | '~' :: r => (true, r)
      | _ => (false, cs)
    match cs1 with
    | d1 :: d2 :: d3 :: d4 :: r =>
      if d1.isDigit && d2.isDigit && d3.isDigit && d4.isDigit then
        match r with
        | '*' :: r2 => some (prov, String.mk [d1, d2, d3, d4], true, r2)
        | _ => some (prov, String.mk [d1, d2, d3, d4], false, r)
      else none
    | _ => none

/-- Compiled `^[~]?\d{4}[\*]?\s*$` (`re.match`), the standalone-code
test of `_is_tariff_code`: after the code head only whitespace remains
(`$` may stand before one final newline, itself whitespace). -/
def standalone_code_match (t : String) : Bool :=
  match code_head t.toList with
  | some (_, _, _, rest) => rest.all isPySpace
  | none => false

/-- Compiled `code_pattern = ^[~]?(\d{4})[\*]?\s+` (`re.match`): code
head followed by at least one whitespace character. -/
def code_pattern_match (t : String) : Bool :=
  match code_head t.toList with
  | some (_, _, _, c :: _) => isPySpace c
  | _ => false

/-- Models `re.match(r'^[~]?(\d{4})[\*]?\s+(.+)$', t)` and returns
`group(2)`: the description after the code head and the greedy
whitespace run. `.` does not match a newline and `$` may stand before
one final newline, so the match fails when a newline survives inside
the group; when the tail is entirely whitespace, the greedy `\s+`
gives back exactly one character to the mandatory `.+`. -/
def tariff_desc_split (t : String) : Option String :=
  match code_head t.toList with
  | none => none
  | some (_, _, _, rest) =>
    let rest2 := if rest.getLast? = some '\n' then rest.dropLast else rest
    let w := (rest2.takeWhile isPySpace).length
    if 1 ≤ w && 2 ≤ rest2.length then
      let grp := rest2.drop (min w (rest2.length - 1))
      if grp.any (fun c => c == '\n') then none else some (String.mk grp)
    else none

/-- Compiled `^\.{3,}\s*[A-Z]-\d+` (`re.match`, case-sensitive): the
index-entry exclusion inside `_is_tariff_code`. -/
def index_dots_match (t : String) : Bool :=
  headAnchoredMatch
    (rcat [rdots3, .star rspace, .cls isUpperAZ, rchr '-', rplus rdigit]) t

/-- Page reference token `[A-Z]-\d+`. -/
def rpageRef : Regex := rcat [.cls isUpperAZ, rchr '-', rplus rdigit]

/-- Compiled `^[A-Z]-\d+(?:,\s*[A-Z]-\d+)*\s*$` (`re.match`,
case-sensitive): the page-reference-list exclusion inside
`_is_tariff_code`. -/
def index_refs_match (t : String) : Bool :=
  anchoredMatch
    (rcat [rpageRef, .star (rcat [rchr ',', .star rspace, rpageRef]),
           .star rspace]) t

/-- The method `HierarchyDetector._is_tariff_code`. -/
def is_tariff_code (text : String) : Bool :=
  let t := pyStrip text
  if code_with_fee_match t then true
  else if standalone_code_match t then true
  else
    match tariff_desc_split t with
    | some grp =>
      let remaining := pyStrip grp
      if index_dots_match remaining then false
      else if index_refs_match remaining then false
      else decide (10 < remaining.length)
    | none => false

/-- Compiled skip patterns of the default configuration, all compiled
with `re.IGNORECASE` and all anchored with `^`, searched against the
stripped line text by `should_skip`. Written as the explicit
disjunction the source's loop computes. -/
def skip_match (t : String) : Bool :=
  headAnchoredMatch (rcat [rstrCI "April 1,", .star rspace, rrep 4 rdigit]) t ||
  anchoredMatch (rcat [.cls isLetterAZ, rchr '-', rplus rdigit]) t ||
  anchoredMatch (rcat [rdigit, ropt rdigit, ropt rdigit]) t ||
  anchoredMatch (rplus (.cls (fun c => c.toLower = 'i' || c.toLower = 'v' ||
    c.toLower = 'x' || c.toLower = 'l' || c.toLower = 'c' ||
    c.toLower = 'd' || c.toLower = 'm'))) t ||
  headAnchoredMatch (rstrCI "Table of Contents") t ||
  headAnchoredMatch (rchr '\x0c') t

/-- The method `HierarchyDetector.should_skip`: trimmed text shorter
than `min_line_length = 3`, or some skip pattern matches. -/
def should_skip (line : TextLine) : Bool :=
  let text := pyStrip line.text
  if text.length < 3 then true
  else skip_match text

/-- Case-insensitive words joined by `\s+`, the shape of the catalogue
patterns. -/
def rwordsCI (ws : List String) : Regex :=
  rcat ((ws.map rstrCI).intersperse (rplus rspace))

/-- Compiled strong-L1 pattern of `_matches_l1` (case-sensitive
`re.search`, fully anchored): an uppercase letter, then one or more
characters from the class uppercase letter, whitespace, hyphen or
slash, then optional whitespace, then a parenthesised two-digit code
with an optional hyphen-digit suffix, then optional whitespace up to
the end. -/
def l1_strong_match (t : String) : Bool :=
  anchoredMatch
    (rcat [.cls isUpperAZ,
           rplus (.cls (fun c => isUpperAZ c || isPySpace c || c = '-' || c = '/')),
           .star rspace, rchr '(', rdigit, rdigit,
           ropt (.cat (rchr '-') (rplus rdigit)), rchr ')', .star rspace]) t

/-- The `major_sections` catalogue hard-coded in `_matches_l1`, each
searched with `re.IGNORECASE` and anchored with `^`. -/
def major_section_match (t : String) : Bool :=
  headAnchoredMatch (rstrCI "VISITS/EXAMINATIONS") t ||
  headAnchoredMatch (rwordsCI ["GENERAL", "SCHEDULE"]) t ||
  headAnchoredMatch (rstrCI "ANESTHESIA") t ||
  headAnchoredMatch (rwordsCI ["INTEGUMENTARY", "SYSTEM"]) t ||
  headAnchoredMatch (rwordsCI ["MUSCULOSKELETAL", "SYSTEM"]) t ||
  headAnchoredMatch (rwordsCI ["RESPIRATORY", "SYSTEM"]) t ||
  headAnchoredMatch (rwordsCI ["CARDIOVASCULAR", "SYSTEM"]) t ||
  headAnchoredMatch (rwordsCI ["DIGESTIVE", "SYSTEM"]) t ||
  headAnchoredMatch (rwordsCI ["URINARY", "SYSTEM"]) t ||
  headAnchoredMatch (rwordsCI ["NERVOUS", "SYSTEM"]) t ||
  headAnchoredMatch (rwordsCI ["ENDOCRINE", "SYSTEM"]) t ||
  headAnchoredMatch (rstrCI "MATERNITY") t ||
  headAnchoredMatch (rstrCI "LABORATORY") t ||
  headAnchoredMatch (rwordsCI ["DIAGNOSTIC", "RADIOLOGICAL"]) t ||
  headAnchoredMatch (rwordsCI ["NUCLEAR", "MEDICINE"]) t ||
  headAnchoredMatch (rwordsCI ["THERAPEUTIC", "RADIOLOGICAL"]) t ||
  headAnchoredMatch (rwordsCI ["RULES", "OF", "APPLICATION"]) t

/-- The method `HierarchyDetector._matches_l1` (default configuration:
`l1_min_font_size = 12.0`). -/
def matches_l1 (line : TextLine) : Bool :=
  let text := pyStrip line.text
  if 80 < text.length then false
  else if fee_search text then false
  else if code_pattern_match text then false
  else if l1_strong_match text then true
  else if major_section_match text then true
  else if decide ((12 : Rat) ≤ line.font_size) &&
          (pyIsUpper text && decide (15 < text.length) && decide (text.length < 60)) &&
          (let words := pySplit text
           decide (2 ≤ words.length) && decide (words.length ≤ 6)) then true
  else false

/-- The `l2_specific` catalogue hard-coded in `_matches_l2`, each
searched with `re.IGNORECASE` and anchored with `^`. -/
def l2_specific_match (t : String) : Bool :=
  headAnchoredMatch (rcat [rstrCI "Office", ropt (rchr ','), .star rspace,
    rstrCI "Home", .star rspace, rstrCI "Visit", ropt (rchrCI 's')]) t ||
  headAnchoredMatch (rwordsCI ["Hospital", "Care"]) t ||
  headAnchoredMatch (rcat [rstrCI "Virtual", rplus rspace, rstrCI "Visit",
    ropt (rchrCI 's')]) t ||
  headAnchoredMatch (rwordsCI ["Chronic", "Care"]) t ||
  headAnchoredMatch (rwordsCI ["Concomitant", "Care"]) t ||
  headAnchoredMatch (rcat [rstrCI "Cutaneous", rplus rspace, rstrCI "Procedure",
    ropt (rchrCI 's')]) t ||
  headAnchoredMatch (rwordsCI ["Upper", "Extremity"]) t ||
  headAnchoredMatch (rwordsCI ["Lower", "Extremity"]) t ||
  headAnchoredMatch (rstrCI "Spine") t ||
  headAnchoredMatch (rwordsCI ["Head", "and", "Neck"]) t ||
  headAnchoredMatch (rstrCI "Pelvis") t ||
  headAnchoredMatch (rstrCI "Thorax") t ||
  headAnchoredMatch (rstrCI "Abdomen") t

/-- Title-case word test of the bold L2 branch:
`w[0].isupper() and not w.isupper()`. -/
def word_title_case (w : String) : Bool :=
  (match w.toList with
   | c :: _ => isUpperAZ c
   | [] => false) && !(pyIsUpper w)

/-- The method `HierarchyDetector._matches_l2` (default configuration:
`l2_min_font_size = 10.5`); `title_words >= len(words) * 0.5` is the
exact comparison `2 * title_words ≥ len(words)`. -/
def matches_l2 (line : TextLine) : Bool :=
  let text := pyStrip line.text
  if 60 < text.length || fee_search text then false
  else if code_pattern_match text then false
  else if l2_specific_match text then true
  else if line.is_bold && decide ((21 / 2 : Rat) ≤ line.font_size) &&
          (let words := pySplit text
           decide (2 ≤ words.length) && decide (words.length ≤ 5) &&
           decide (words.length ≤ 2 * (words.filter word_title_case).length)) then true
  else false

/-- The `l3_specific` catalogue hard-coded in `_matches_l3`, each
searched with `re.IGNORECASE`, almost all fully anchored. -/
def l3_specific_match (t : String) : Bool :=
  anchoredMatch (rstrCI "Investigation") t ||
  anchoredMatch (rstrCI "Incision") t ||
  anchoredMatch (rstrCI "Excision") t ||
  anchoredMatch (rstrCI "Repair") t ||
  anchoredMatch (rwordsCI ["Revision", "and", "Repair"]) t ||
  anchoredMatch (rstrCI "Reconstruction") t ||
  anchoredMatch (rstrCI "Amputation") t ||
  anchoredMatch (.cat (rstrCI "Fracture") (ropt (rchrCI 's'))) t ||
  anchoredMatch (.cat (rstrCI "Dislocation") (ropt (rchrCI 's'))) t ||
  anchoredMatch (rcat [rstrCI "Joint", rplus rspace, rstrCI "Procedure",
    ropt (rchrCI 's')]) t

/-- The method `HierarchyDetector._matches_l3`. -/
def matches_l3 (line : TextLine) : Bool :=
  let text := pyStrip line.text
  if 40 < text.length || fee_search text then false
  else if code_pattern_match text then false
  else l3_specific_match text

/-- The method `HierarchyDetector.detect_level`. The `prevLine`
argument is received but never read, exactly as in the source. -/
def detect_level (line : TextLine) (_prevLine : Option TextLine) : Option HLevel :=
  if is_tariff_code (pyStrip line.text) then some HLevel.CODE
  else if matches_l1 line then some HLevel.L1
  else if matches_l2 line then some HLevel.L2
  else if matches_l3 line then some HLevel.L3
  else none

/-- The method `HierarchyDetector.extract_code_info`: first the
standalone form `^(~)?(\d{4})(\*)?\s*$`, then the code-head form
`^(~)?(\d{4})(\*)?\s+`; `full_match` is `group(0)` (for the code-head
form, the head together with the greedy whitespace run). -/
def extract_code_info (text : String) : Option CodeInfo :=
  let t := pyStrip text
  match code_head t.toList with
  | none => none
  | some (prov, code, ast, rest) =>
    if rest.all isPySpace then
      some { code := code, is_provisional := prov, is_asterisked := ast,
             full_match := t }
    else
      match rest with
      | c :: _ =>
        if isPySpace c then
          some { code := code, is_provisional := prov, is_asterisked := ast,
                 full_match :=
                   String.mk (t.toList.take
                     (t.toList.length - (rest.dropWhile isPySpace).length)) }
        else none
      | [] => none

/-! ## Marker insertion (`TextMarker`) -/

/-- Models `re.sub(r'\.{2,}.*$', '', text)` for single-line text (the
extractor never emits a newline inside a line): delete everything from
the first run of two or more dots to the end. -/
def dropFromDotsRun : List Char → List Char
  | [] => []
  | c :: cs =>
    match cs with
    | c2 :: _ => if c = '.' && c2 = '.' then [] else c :: dropFromDotsRun cs
    | [] => [c]

/-- Models `re.sub(r'\s+[A-Z]-\d+$', '', text)` for single-line text:
remove a trailing page reference together with the whitespace run
before it. -/
def dropPageRefSuffix (cs : List Char) : List Char :=
  let rev := cs.reverse
  let ds := rev.takeWhile Char.isDigit
  if ds.isEmpty then cs
  else
    match rev.drop ds.length with
    | '-' :: u :: r2 =>
      if isUpperAZ u && !(r2.takeWhile isPySpace).isEmpty then
        (r2.dropWhile isPySpace).reverse
      else cs
    | _ => cs

/-- The method `TextMarker._clean_header_text`. -/
def clean_header_text (text : String) : String :=
  pyStrip (String.mk (dropPageRefSuffix (dropFromDotsRun text.toList)))

/-- Marker value normalisation inside `TextMarker._format_marker`:
uppercase, drop whitespace, then drop every character that is not an
uppercase letter or digit (the whitespace removal is subsumed by the
final filter). -/
def marker_value (text : String) : String :=
  String.mk ((pyUpper text).toList.filter (fun c => isUpperAZ c || c.isDigit))

/-- The method `TextMarker._format_marker` with the default template
`marker_format` instantiated. -/
def format_marker (lvl : String) (text : String) : String :=
  "«" ++ lvl ++ ":" ++ marker_value text ++ "»"

/-- The method `TextMarker._format_code_marker` with the default
template `code_marker_format` instantiated. -/
def format_code_marker (code : String) (is_provisional : Bool)
    (is_asterisked : Bool) : String :=
  "«CODE:" ++ (if is_provisional then "~" else "") ++ code ++
    (if is_asterisked then "*" else "") ++ "»"

/-- Compiled `content_start_patterns` of the default configuration,
compiled without flags and searched (unanchored) in the RAW line
text. -/
def content_start_match (text : String) : Bool :=
  searchMatch (rcat [rstr "RULES", rplus rspace, rstr "OF", rplus rspace,
    rstr "APPLICATION"]) text ||
  searchMatch (rstr "These benefits cannot be correctly interpreted") text

/-- Loop state of `TextMarker.mark_text`: the `content_started` flag,
the `current_hierarchy` dict and the `output` list. -/
structure MarkState where
  started : Bool
  hier : Hierarchy
  output : List String
deriving DecidableEq

/-- The hierarchy update of the `L1`..`L4` branch of `mark_text`:
`current_hierarchy[level] = header_text` followed by clearing every
deeper tier (`for l in range(level_num + 1, 5)`). `CODE` never
reaches this branch and leaves the dict unchanged. -/
def update_hierarchy (h : Hierarchy) (lvl : HLevel) (v : String) : Hierarchy :=
  match lvl with
  | .L1 => { l1 := v, l2 := "", l3 := "", l4 := "" }
  | .L2 => { h with l2 := v, l3 := "", l4 := "" }
  | .L3 => { h with l3 := v, l4 := "" }
  | .L4 => { h with l4 := v }
  | .CODE => h

/-- One iteration of the `mark_text` loop body. The source computes
`prev_line = lines[i - 1]` and hands it to `detect_level`, which never
reads it; the embedding passes `none`. -/
def markStep (st : MarkState) (line : TextLine) : MarkState :=
  if st.started = false then
    if content_start_match line.text then
      { started := true, hier := st.hier,
        output := st.output ++ [format_marker "L1" "RULESOFAPPLICATION", line.text] }
    else
      { st with output := st.output ++ [line.text] }
  else if should_skip line then
    { st with output := st.output ++ [line.text] }
  else
    match detect_level line none with
    | some HLevel.CODE =>
      match extract_code_info line.text with
      | some ci =>
        { st with output := st.output ++
            [format_code_marker ci.code ci.is_provisional ci.is_asterisked,
             line.text] }
      | none => { st with output := st.output ++ [line.text] }
    | some lvl =>
      let header := clean_header_text line.text
      { st with
        output := st.output ++ [format_marker (level_name lvl) header, line.text],
        hier := update_hierarchy st.hier lvl header }
    | none => { st with output := st.output ++ [line.text] }

/-- Initial state of one `mark_text` pass: `content_started = False`,
every `current_hierarchy` tier empty, empty output. -/
def initMarkState : MarkState :=
  { started := false, hier := { l1 := "", l2 := "", l3 := "", l4 := "" },
    output := [] }

/-- The `mark_text` loop run from an arbitrary state. -/
def markRun (st : MarkState) (lines : List TextLine) : MarkState :=
  lines.foldl markStep st

/-- The method `TextMarker.mark_text`: the emitted output lines. -/
def mark_text (lines : List TextLine) : List String :=
  (markRun initMarkState lines).output

/-! ## Statistics (`_calculate_stats`) -/

/-- The statistics dict of `_calculate_stats`. -/
structure MarkStats where
  sL1 : Nat
  sL2 : Nat
  sL3 : Nat
  sL4 : Nat
  sCODE : Nat
  provisional : Nat
  asterisked : Nat
deriving DecidableEq

/-- All-zero statistics, the dict initialiser. -/
def initMarkStats : MarkStats :=
  { sL1 := 0, sL2 := 0, sL3 := 0, sL4 := 0, sCODE := 0,
    provisional := 0, asterisked := 0 }

/-- One iteration of the `_calculate_stats` loop: the tier branches are
an `if`/`elif` chain (first match counts), while inside the `CODE`
branch the provisional and asterisk glyphs are two independent
substring tests. -/
def stats_step (s : MarkStats) (line : String) : MarkStats :=
  if strContains line "«L1:" then { s with sL1 := s.sL1 + 1 }
  else if strContains line "«L2:" then { s with sL2 := s.sL2 + 1 }
  else if strContains line "«L3:" then { s with sL3 := s.sL3 + 1 }
  else if strContains line "«L4:" then { s with sL4 := s.sL4 + 1 }
  else if strContains line "«CODE:" then
    let s1 := { s with sCODE := s.sCODE + 1 }
    let s2 := if strContains line "«CODE:~" then
                { s1 with provisional := s1.provisional + 1 }
              else s1
    if strContains line "*»" then { s2 with asterisked := s2.asterisked + 1 }
    else s2
  else s

/-- The function `_calculate_stats` (its `config` parameter is unused
in the source body). -/
def calculate_stats (lines : List String) : MarkStats :=
  lines.foldl stats_step initMarkStats

/-! ## Configuration loading (`load_config`) -/

/-- Outcome of reading and parsing a present configuration file:
either a well-formed `MarkerConfig`, or malformed data (unreadable
file contents, invalid JSON, or keys the dataclass rejects — every
case in which `open`, `json.load` or `MarkerConfig(**config_dict)`
raises). -/
inductive ConfigData where
  | ok : MarkerConfig → ConfigData
  | malformed : ConfigData
deriving DecidableEq

/-- The observable configuration input of `load_config`: no usable
path (`config_path` falsy or `Path(config_path).exists()` false), or
a present file with the given read/parse outcome. -/
inductive ConfigSource where
  | missing : ConfigSource
  | file : ConfigData → ConfigSource
deriving DecidableEq

/-- The function `load_config`: a missing file yields the built-in
defaults; a present file is read and parsed with NO exception
handling, so malformed data propagates as an error (`main` calls
`load_config` outside its `try` block). -/
def load_config : ConfigSource → Except String MarkerConfig
  | .missing => .ok defaultMarkerConfig
  | .file (.ok c) => .ok c
  | .file .malformed => .error "configuration data is invalid or unreadable"

/-! ## Hierarchy-free variant of the pass (for the write-only claim)

`mark_text` assigns `current_hierarchy` but never reads it. The
following variant is `mark_text` with all `current_hierarchy`
initialisation and updates removed; the claim compares the two. -/

/-- Loop state of the variant: only the flag and the output. -/
structure MarkStateNoH where
  started : Bool
  output : List String
deriving DecidableEq

/-- One iteration of the variant: identical to `markStep` except that
the hierarchy dict and its updates are gone. -/
def markStepNoH (st : MarkStateNoH) (line : TextLine) : MarkStateNoH :=
  if st.started = false then
    if content_start_match line.text then
      { started := true,
        output := st.output ++ [format_marker "L1" "RULESOFAPPLICATION", line.text] }
    else
      { st with output := st.output ++ [line.text] }
  else if should_skip line then
    { st with output := st.output ++ [line.text] }
  else
    match detect_level line none with
    | some HLevel.CODE =>
      match extract_code_info line.text with
      | some ci =>
        { st with output := st.output ++
            [format_code_marker ci.code ci.is_provisional ci.is_asterisked,
             line.text] }
      | none => { st with output := st.output ++ [line.text] }
    | some lvl =>
      let header := clean_header_text line.text
      { st with
        output := st.output ++ [format_marker (level_name lvl) header, line.text] }
    | none => { st with output := st.output ++ [line.text] }

/-- The variant pass. -/
def mark_text_noH (lines : List TextLine) : List String :=
  (lines.foldl markStepNoH { started := false, output := [] }).output

/-! ## Structural lemmas about the marker-insertion pass -/

/-- Every iteration of the `mark_text` loop appends to the output
exactly the line's own text, preceded by at most one marker line. -/
theorem markStep_shape (st : MarkState) (line : TextLine) :
    ∃ pre : List String,
      (markStep st line).output = st.output ++ (pre ++ [line.text]) ∧
      pre.length ≤ 1 := by
  unfold markStep
  by_cases h1 : st.started = false
  · by_cases h2 : content_start_match line.text = true
    · exact ⟨[format_marker "L1" "RULESOFAPPLICATION"], by simp [h1, h2], by simp⟩
    · exact ⟨[], by simp [h1, h2], by simp⟩
  · by_cases h3 : should_skip line = true
    · exact ⟨[], by simp [h1, h3], by simp⟩
    · rcases hdl : detect_level line none with _ | lvl
      · exact ⟨[], by simp [h1, h3, hdl], by simp⟩
      · cases lvl
        · exact ⟨[format_marker "L1" (clean_header_text line.text)],
            by simp [h1, h3, hdl, level_name], by simp⟩
        · exact ⟨[format_marker "L2" (clean_header_text line.text)],
            by simp [h1, h3, hdl, level_name], by simp⟩
        · exact ⟨[format_marker "L3" (clean_header_text line.text)],
            by simp [h1, h3, hdl, level_name], by simp⟩
        · exact ⟨[format_marker "L4" (clean_header_text line.text)],
            by simp [h1, h3, hdl, level_name], by simp⟩
        · rcases hci : extract_code_info line.text with _ | ci
          · exact ⟨[], by simp [h1, h3, hdl, hci], by simp⟩
          · exact ⟨[format_code_marker ci.code ci.is_provisional ci.is_asterisked],
              by simp [h1, h3, hdl, hci], by simp⟩

/-- The whole pass decomposes as, per input line, an optional marker
followed by the unmodified line text, in input order. -/
theorem markRun_decomp (lines : List TextLine) (st : MarkState) :
    ∃ pres : List (List String),
      pres.length = lines.length ∧
      (∀ p ∈ pres, p.length ≤ 1) ∧
      (markRun st lines).output =
        st.output ++ (List.zipWith (fun p l => p ++ [l.text]) pres lines).flatten := by
  induction lines generalizing st with
  | nil => exact ⟨[], rfl, by simp, by simp [markRun]⟩
  | cons l ls ih =>
    obtain ⟨pre, hout, hlen⟩ := markStep_shape st l
    obtain ⟨pres, hl, hb, hrun⟩ := ih (markStep st l)
    refine ⟨pre :: pres, by simp [hl], ?_, ?_⟩
    · intro p hp
      rcases List.mem_cons.mp hp with h | h
      · exact h ▸ hlen
      · exact hb p h
    · have : markRun st (l :: ls) = markRun (markStep st l) ls := rfl
      rw [this, hrun, hout]
      simp [List.append_assoc]

/-- The per-line decomposition is never shorter than the input list. -/
theorem zip_join_length (pres : List (List String)) (lines : List TextLine)
    (h : lines.length ≤ pres.length) :
    lines.length ≤ ((List.zipWith (fun p l => p ++ [l.text]) pres lines).flatten).length := by
  induction lines generalizing pres with
  | nil => simp
  | cons l ls ih =>
    cases pres with
    | nil => simp at h
    | cons p ps =>
      have := ih ps (by simpa using h)
      simp only [List.zipWith_cons_cons, List.flatten_cons, List.length_append,
        List.length_cons]
      omega

/-- C1: for every finite input sequence (and the default
configuration), one `mark_text` pass emits every input line's text
exactly once, unmodified and in input order: the output is the
concatenation, per input line, of a block of at most one marker line
followed by that line's text; consequently the output is at least as
long as the input, and markers never replace or reorder original
content. -/
theorem claim_C1 (lines : List TextLine) :
    ∃ pres : List (List String),
      pres.length = lines.length ∧
      (∀ p ∈ pres, p.length ≤ 1) ∧
      mark_text lines =
        (List.zipWith (fun p l => p ++ [l.text]) pres lines).flatten ∧
      lines.length ≤ (mark_text lines).length := by
  obtain ⟨pres, hl, hb, hrun⟩ := markRun_decomp lines initMarkState
  refine ⟨pres, hl, hb, ?_, ?_⟩
  · simpa [mark_text, initMarkState] using hrun
  · have h2 := zip_join_length pres lines (le_of_eq hl.symm)
    have h3 : mark_text lines =
        (List.zipWith (fun p l => p ++ [l.text]) pres lines).flatten := by
      simpa [mark_text, initMarkState] using hrun
    rw [h3]
    exact h2

/-- One loop iteration computes its flag and hierarchy from the
incoming flag, hierarchy and line only, and appends to the incoming
output a block that does not depend on it. -/
theorem markStep_split (s : Bool) (h : Hierarchy) (o : List String)
    (line : TextLine) :
    markStep { started := s, hier := h, output := o } line =
    { started := (markStep { started := s, hier := h, output := [] } line).started,
      hier := (markStep { started := s, hier := h, output := [] } line).hier,
      output := o ++ (markStep { started := s, hier := h, output := [] } line).output } := by
  unfold markStep
  by_cases h1 : s = false
  · by_cases h2 : content_start_match line.text = true
    · simp [h1, h2]
    · simp [h1, h2]
  · by_cases h3 : should_skip line = true
    · simp [h1, h3]
    · rcases hdl : detect_level line none with _ | lvl
      · simp [h1, h3, hdl]
      · cases lvl
        · simp [h1, h3, hdl]
        · simp [h1, h3, hdl]
        · simp [h1, h3, hdl]
        · simp [h1, h3, hdl]
        · rcases hci : extract_code_info line.text with _ | ci
          · simp [h1, h3, hdl, hci]
          · simp [h1, h3, hdl, hci]

/-- Output accumulation over a whole run: the incoming output is a
prefix of the final output, and what follows it does not depend on
it. -/
theorem markRun_split (lines : List TextLine) (s : Bool) (h : Hierarchy)
    (o : List String) :
    markRun { started := s, hier := h, output := o } lines =
    { started := (markRun { started := s, hier := h, output := [] } lines).started,
      hier := (markRun { started := s, hier := h, output := [] } lines).hier,
      output := o ++ (markRun { started := s, hier := h, output := [] } lines).output } := by
  induction lines generalizing s h o with
  | nil => simp [markRun]
  | cons l ls ih =>
    have step : markRun { started := s, hier := h, output := o } (l :: ls) =
        markRun (markStep { started := s, hier := h, output := o } l) ls := rfl
    have step0 : markRun { started := s, hier := h, output := [] } (l :: ls) =
        markRun (markStep { started := s, hier := h, output := [] } l) ls := rfl
    rw [step, step0, markStep_split s h o l]
    rcases hstep : markStep { started := s, hier := h, output := [] } l with ⟨s1, h1, o1⟩
    rw [ih s1 h1 (o ++ o1), ih s1 h1 o1]
    simp

/-- In the preamble state, lines with no content-start match are
emitted unchanged: no markers, no flag change, no hierarchy change. -/
theorem markRun_preamble (pre : List TextLine) (h : Hierarchy) (o : List String)
    (hpre : ∀ l ∈ pre, content_start_match l.text = false) :
    markRun { started := false, hier := h, output := o } pre =
    { started := false, hier := h, output := o ++ pre.map (fun l => l.text) } := by
  induction pre generalizing o with
  | nil => simp [markRun]
  | cons l ls ih =>
    have hl : content_start_match l.text = false := hpre l (List.mem_cons_self l ls)
    have hstep : markStep { started := false, hier := h, output := o } l =
        { started := false, hier := h, output := o ++ [l.text] } := by
      unfold markStep
      simp [hl]
    have step : markRun { started := false, hier := h, output := o } (l :: ls) =
        markRun (markStep { started := false, hier := h, output := o } l) ls := rfl
    rw [step, hstep, ih (o ++ [l.text]) (fun x hx => hpre x (List.mem_cons_of_mem l hx))]
    simp

/-- The `content_started` flag is never reset by one iteration. -/
theorem markStep_started_mono (st : MarkState) (line : TextLine)
    (h : st.started = true) : (markStep st line).started = true := by
  unfold markStep
  by_cases h3 : should_skip line = true
  · simp [h, h3]
  · rcases hdl : detect_level line none with _ | lvl
    · simp [h, h3, hdl]
    · cases lvl
      · simp [h, h3, hdl]
      · simp [h, h3, hdl]
      · simp [h, h3, hdl]
      · simp [h, h3, hdl]
      · rcases hci : extract_code_info line.text with _ | ci
        · simp [h, h3, hdl, hci]
        · simp [h, h3, hdl, hci]

/-- The `content_started` flag is never reset by a whole run. -/
theorem markRun_started_mono (lines : List TextLine) (st : MarkState)
    (h : st.started = true) : (markRun st lines).started = true := by
  induction lines generalizing st with
  | nil => exact h
  | cons l ls ih => exact ih (markStep st l) (markStep_started_mono st l h)

/-- C3: before the first content-start match no marker is emitted and
no state is mutated (preamble lines pass through unchanged); on the
first match exactly one synthetic L1 marker with the canonical value
`RULESOFAPPLICATION` is emitted immediately before the triggering
line, which is itself emitted unchanged; and the `content_started`
flag, once set, is never reset for the remainder of the run. -/
theorem claim_C3 :
    (∀ (pre : List TextLine) (h : Hierarchy) (o : List String),
      (∀ l ∈ pre, content_start_match l.text = false) →
      markRun { started := false, hier := h, output := o } pre =
        { started := false, hier := h, output := o ++ pre.map (fun l => l.text) }) ∧
    (∀ (pre : List TextLine) (trig : TextLine) (rest : List TextLine),
      (∀ l ∈ pre, content_start_match l.text = false) →
      content_start_match trig.text = true →
      mark_text (pre ++ trig :: rest) =
        pre.map (fun l => l.text) ++
          "«L1:RULESOFAPPLICATION»" :: trig.text ::
            (markRun { started := true, hier := initMarkState.hier,
                       output := [] } rest).output) ∧
    (∀ (st : MarkState) (lines : List TextLine),
      st.started = true → (markRun st lines).started = true) := by
  refine ⟨markRun_preamble, ?_, fun st lines => markRun_started_mono lines st⟩
  intro pre trig rest hpre htrig
  have hsplitruns : markRun initMarkState (pre ++ trig :: rest) =
      markRun (markRun initMarkState pre) (trig :: rest) := by
    simp [markRun, List.foldl_append]
  have hpream : markRun initMarkState pre =
      { started := false, hier := initMarkState.hier,
        output := [] ++ pre.map (fun l => l.text) } :=
    markRun_preamble pre initMarkState.hier [] hpre
  have htrigstep :
      markStep { started := false, hier := initMarkState.hier,
                 output := pre.map (fun l => l.text) } trig =
      { started := true, hier := initMarkState.hier,
        output := pre.map (fun l => l.text) ++
          [format_marker "L1" "RULESOFAPPLICATION", trig.text] } := by
    unfold markStep
    simp [htrig]
  have hmarker : format_marker "L1" "RULESOFAPPLICATION" =
      "«L1:RULESOFAPPLICATION»" := by decide
  have hcons : markRun { started := false, hier := initMarkState.hier,
                         output := pre.map (fun l => l.text) } (trig :: rest) =
      markRun (markStep { started := false, hier := initMarkState.hier,
                          output := pre.map (fun l => l.text) } trig) rest := rfl
  unfold mark_text
  rw [hsplitruns, hpream]
  simp only [List.nil_append]
  rw [hcons, htrigstep, hmarker,
    markRun_split rest true initMarkState.hier
      (pre.map (fun l => l.text) ++ ["«L1:RULESOFAPPLICATION»", trig.text])]
  simp

/-- C3 witness: a two-line run with one preamble line and the
content-start trigger produces exactly the preamble text, the
synthetic marker and the trigger text. -/
theorem claim_C3_witness :
    mark_text
      [{ text := "intro text", page_num := 1, top := 0, left := 0,
         font_size := 10, is_bold := false, line_num := 1 },
       { text := "RULES OF APPLICATION", page_num := 1, top := 0, left := 0,
         font_size := 10, is_bold := false, line_num := 2 }] =
      ["intro text", "«L1:RULESOFAPPLICATION»", "RULES OF APPLICATION"] := by
  have h := claim_C3.2.1
    [{ text := "intro text", page_num := 1, top := 0, left := 0,
       font_size := 10, is_bold := false, line_num := 1 }]
    { text := "RULES OF APPLICATION", page_num := 1, top := 0, left := 0,
      font_size := 10, is_bold := false, line_num := 2 }
    [] (by decide) (by decide)
  simpa [markRun] using h

/-- One iteration of the full pass and of the hierarchy-free variant
agree on the flag and the output whenever they agree coming in,
whatever hierarchy the full state carries. -/
theorem markStep_agree_noH (st : MarkState) (stn : MarkStateNoH)
    (line : TextLine) (hs : st.started = stn.started)
    (ho : st.output = stn.output) :
    (markStep st line).started = (markStepNoH stn line).started ∧
    (markStep st line).output = (markStepNoH stn line).output := by
  unfold markStep markStepNoH
  rw [hs, ho]
  by_cases h1 : stn.started = false
  · by_cases h2 : content_start_match line.text = true
    · simp [h1, h2]
    · simp [h1, h2]
  · by_cases h3 : should_skip line = true
    · simp [h1, h3]
    · rcases hdl : detect_level line none with _ | lvl
      · simp [h1, h3, hdl]
      · cases lvl
        · simp [h1, h3, hdl]
        · simp [h1, h3, hdl]
        · simp [h1, h3, hdl]
        · simp [h1, h3, hdl]
        · rcases hci : extract_code_info line.text with _ | ci
          · simp [h1, h3, hdl, hci]
          · simp [h1, h3, hdl, hci]

/-- The agreement extends to whole runs. -/
theorem markRun_agree_noH (lines : List TextLine) (st : MarkState)
    (stn : MarkStateNoH) (hs : st.started = stn.started)
    (ho : st.output = stn.output) :
    (markRun st lines).started = (lines.foldl markStepNoH stn).started ∧
    (markRun st lines).output = (lines.foldl markStepNoH stn).output := by
  induction lines generalizing st stn with
  | nil => exact ⟨hs, ho⟩
  | cons l ls ih =>
    obtain ⟨hs1, ho1⟩ := markStep_agree_noH st stn l hs ho
    exact ih (markStep st l) (markStepNoH stn l) hs1 ho1

/-- C10: the `current_hierarchy` state of `mark_text` is write-only —
it is assigned but never read — so removing all its initialisation
and updates (`mark_text_noH`) leaves the output of the pass
unchanged on every input sequence. -/
theorem claim_C10 (lines : List TextLine) :
    mark_text lines = mark_text_noH lines := by
  have h := markRun_agree_noH lines initMarkState
    { started := false, output := [] } rfl rfl
  exact h.2

/-- C2: under the default configuration `detect_level` evaluates its
tests in the fixed priority order CODE, L1, L2, L3 with the first
match winning and evaluation stopping there; in particular a line
passing both the tariff-code test and the L1 test is classified CODE,
and `detect_level` never returns L4. -/
theorem claim_C2 (line : TextLine) (prev : Option TextLine) :
    (is_tariff_code (pyStrip line.text) = true →
      detect_level line prev = some HLevel.CODE) ∧
    (is_tariff_code (pyStrip line.text) = true ∧ matches_l1 line = true →
      detect_level line prev = some HLevel.CODE) ∧
    (is_tariff_code (pyStrip line.text) = false → matches_l1 line = true →
      detect_level line prev = some HLevel.L1) ∧
    (is_tariff_code (pyStrip line.text) = false → matches_l1 line = false →
      matches_l2 line = true → detect_level line prev = some HLevel.L2) ∧
    (is_tariff_code (pyStrip line.text) = false → matches_l1 line = false →
      matches_l2 line = false → matches_l3 line = true →
      detect_level line prev = some HLevel.L3) ∧
    (is_tariff_code (pyStrip line.text) = false → matches_l1 line = false →
      matches_l2 line = false → matches_l3 line = false →
      detect_level line prev = none) ∧
    detect_level line prev ≠ some HLevel.L4 := by
  unfold detect_level
  by_cases hc : is_tariff_code (pyStrip line.text) = true
  · simp [hc]
  · by_cases h1 : matches_l1 line = true
    · simp [hc, h1]
    · by_cases h2 : matches_l2 line = true
      · simp [hc, h1, h2]
      · by_cases h3 : matches_l3 line = true
        · simp [hc, h1, h2, h3]
        · simp [hc, h1, h2, h3]

/-- C2 witness: a concrete tariff-code line is classified CODE by the
priority chain. -/
theorem claim_C2_witness :
    is_tariff_code (pyStrip "8540 Complete History and Physical Examination") = true ∧
    detect_level
      { text := "8540 Complete History and Physical Examination", page_num := 1,
        top := 0, left := 0, font_size := 10, is_bold := false, line_num := 1 }
      none = some HLevel.CODE :=
  ⟨by decide,
   (claim_C2
      { text := "8540 Complete History and Physical Examination", page_num := 1,
        top := 0, left := 0, font_size := 10, is_bold := false, line_num := 1 }
      none).1 (by decide)⟩

/-- C5: whenever an active, non-skipped line is classified into a
hierarchy tier, the pass binds the cleaned header value to that tier
and clears every deeper tier; in particular after binding L1 then L2
both values are held, and a later L1 binding clears the bound L2, L3
and L4 values. -/
theorem claim_C5 :
    (∀ (st : MarkState) (line : TextLine) (lvl : HLevel),
      st.started = true → should_skip line = false →
      detect_level line none = some lvl → lvl ≠ HLevel.CODE →
      (markStep st line).hier =
        update_hierarchy st.hier lvl (clean_header_text line.text)) ∧
    (∀ (h : Hierarchy) (lvl : HLevel) (v : String), lvl ≠ HLevel.CODE →
      tierVal (update_hierarchy h lvl v) (level_num lvl) = v ∧
      ∀ j, level_num lvl < j → j ≤ 4 →
        tierVal (update_hierarchy h lvl v) j = "") ∧
    (∀ (h : Hierarchy) (a b c : String),
      (update_hierarchy (update_hierarchy h HLevel.L1 a) HLevel.L2 b).l1 = a ∧
      (update_hierarchy (update_hierarchy h HLevel.L1 a) HLevel.L2 b).l2 = b ∧
      (update_hierarchy (update_hierarchy (update_hierarchy h HLevel.L1 a)
          HLevel.L2 b) HLevel.L1 c).l1 = c ∧
      (update_hierarchy (update_hierarchy (update_hierarchy h HLevel.L1 a)
          HLevel.L2 b) HLevel.L1 c).l2 = "" ∧
      (update_hierarchy (update_hierarchy (update_hierarchy h HLevel.L1 a)
          HLevel.L2 b) HLevel.L1 c).l3 = "" ∧
      (update_hierarchy (update_hierarchy (update_hierarchy h HLevel.L1 a)
          HLevel.L2 b) HLevel.L1 c).l4 = "") := by
  refine ⟨?_, ?_, ?_⟩
  · intro st line lvl hs hskip hdl hne
    unfold markStep
    cases lvl
    · simp [hs, hskip, hdl]
    · simp [hs, hskip, hdl]
    · simp [hs, hskip, hdl]
    · simp [hs, hskip, hdl]
    · exact absurd rfl hne
  · intro h lvl v hne
    cases lvl
    · refine ⟨rfl, ?_⟩
      intro j h1 h2
      simp only [level_num] at h1
      interval_cases j <;> rfl
    · refine ⟨rfl, ?_⟩
      intro j h1 h2
      simp only [level_num] at h1
      interval_cases j <;> rfl
    · refine ⟨rfl, ?_⟩
      intro j h1 h2
      simp only [level_num] at h1
      have hj : j = 4 := by omega
      subst hj
      rfl
    · refine ⟨rfl, ?_⟩
      intro j h1 h2
      simp only [level_num] at h1
      omega
    · exact absurd rfl hne
  · intro h a b c
    exact ⟨rfl, rfl, rfl, rfl, rfl, rfl⟩

/-- C5 witness: an active run over an L1 heading binds the cleaned
value at tier 1 and clears tiers 2..4. -/
theorem claim_C5_witness :
    (markStep
      { started := true,
        hier := { l1 := "OLD1", l2 := "OLD2", l3 := "OLD3", l4 := "OLD4" },
        output := [] }
      { text := "ANESTHESIA", page_num := 1, top := 0, left := 0,
        font_size := 10, is_bold := false, line_num := 1 }).hier =
    update_hierarchy { l1 := "OLD1", l2 := "OLD2", l3 := "OLD3", l4 := "OLD4" }
      HLevel.L1 (clean_header_text "ANESTHESIA") :=
  claim_C5.1
    { started := true,
      hier := { l1 := "OLD1", l2 := "OLD2", l3 := "OLD3", l4 := "OLD4" },
      output := [] }
    { text := "ANESTHESIA", page_num := 1, top := 0, left := 0,
      font_size := 10, is_bold := false, line_num := 1 }
    HLevel.L1 rfl (by decide) (by decide) (by decide)

/-- Digit characters are not the newline character. -/
theorem isDigit_not_nl {c : Char} (h : c.isDigit = true) : (c == '\n') = false := by
  by_cases hc : c = '\n'
  · subst hc
    exact absurd h (by decide)
  · exact beq_eq_false_iff_ne.mpr hc

/-- A trimmed line of one to three digit characters matches the plain
page-number skip pattern `^\d{1,3}$`. -/
theorem digits_skip (s : String) (h1 : 1 ≤ s.length) (h2 : s.length ≤ 3)
    (h3 : s.toList.all Char.isDigit = true) : skip_match s = true := by
  have hlen : s.toList.length = s.length := rfl
  have key : anchoredMatch (rcat [rdigit, ropt rdigit, ropt rdigit]) s = true := by
    unfold anchoredMatch
    rcases hls : s.toList with _ | ⟨a, _ | ⟨b, _ | ⟨c, _ | ⟨d, rest⟩⟩⟩⟩
    · rw [hls] at hlen
      simp only [List.length_nil] at hlen
      omega
    · rw [hls] at h3
      simp only [List.all_cons, List.all_nil, Bool.and_true] at h3
      have hna := isDigit_not_nl h3
      simp [Regex.matchList, Regex.deriv, Regex.nullable, dollarAnchor, ropt,
        rcat, rchr, rdigit, h3, hna]
    · rw [hls] at h3
      simp only [List.all_cons, List.all_nil, Bool.and_true] at h3
      obtain ⟨ha, hb⟩ := Bool.and_eq_true_iff.mp h3
      have hna := isDigit_not_nl ha
      have hnb := isDigit_not_nl hb
      simp [Regex.matchList, Regex.deriv, Regex.nullable, dollarAnchor, ropt,
        rcat, rchr, rdigit, ha, hb, hna, hnb]
    · rw [hls] at h3
      simp only [List.all_cons, List.all_nil, Bool.and_true] at h3
      obtain ⟨ha, h3r⟩ := Bool.and_eq_true_iff.mp h3
      obtain ⟨hb, hc⟩ := Bool.and_eq_true_iff.mp h3r
      have hna := isDigit_not_nl ha
      have hnb := isDigit_not_nl hb
      have hnc := isDigit_not_nl hc
      simp [Regex.matchList, Regex.deriv, Regex.nullable, dollarAnchor, ropt,
        rcat, rchr, rdigit, ha, hb, hc, hna, hnb, hnc]
    · rw [hls] at hlen
      simp only [List.length_cons] at hlen
      omega
  simp [skip_match, key]

/-- C6: `should_skip` holds exactly when the trimmed text is shorter
than the configured minimum (3) or matches some skip pattern; as a
consequence, in the active state a line whose trimmed text is one to
three digits is emitted unchanged, with no preceding marker and no
hierarchy mutation. -/
theorem claim_C6 :
    (∀ line : TextLine,
      should_skip line =
        (decide ((pyStrip line.text).length < 3) ||
          skip_match (pyStrip line.text))) ∧
    (∀ (st : MarkState) (line : TextLine),
      st.started = true →
      1 ≤ (pyStrip line.text).length →
      (pyStrip line.text).length ≤ 3 →
      (pyStrip line.text).toList.all Char.isDigit = true →
      markStep st line = { st with output := st.output ++ [line.text] }) := by
  constructor
  · intro line
    unfold should_skip
    by_cases h : (pyStrip line.text).length < 3
    · simp [h]
    · simp [h]
  · intro st line hs hl1 hl2 hd
    have hskip : should_skip line = true := by
      unfold should_skip
      by_cases h : (pyStrip line.text).length < 3
      · simp [h]
      · simp only [h, if_false]
        exact digits_skip (pyStrip line.text) hl1 hl2 hd
    unfold markStep
    simp [hs, hskip]

/-- C6 witness: in the active state, the page-number line `123` passes
through unchanged with no marker and no state change. -/
theorem claim_C6_witness :
    markStep
      { started := true,
        hier := { l1 := "A", l2 := "B", l3 := "C", l4 := "D" },
        output := ["prior"] }
      { text := "123", page_num := 1, top := 0, left := 0, font_size := 10,
        is_bold := false, line_num := 4 } =
    { started := true,
      hier := { l1 := "A", l2 := "B", l3 := "C", l4 := "D" },
      output := ["prior", "123"] } := by
  have h := claim_C6.2
    { started := true,
      hier := { l1 := "A", l2 := "B", l3 := "C", l4 := "D" },
      output := ["prior"] }
    { text := "123", page_num := 1, top := 0, left := 0, font_size := 10,
      is_bold := false, line_num := 4 }
    rfl (by decide) (by decide) (by decide)
  simpa using h

/-- C7: for a line whose stripped text parses as code head plus
whitespace plus description (and which matches neither the
code-with-fee pattern nor the standalone-code pattern, and whose
stripped description is not an index-only continuation), the
tariff-code test succeeds exactly when the stripped description is
strictly longer than 10 characters; on concrete inputs, a 10-character
description is not a code while an 11-character one is. -/
theorem claim_C7 :
    (∀ (text grp : String),
      code_with_fee_match (pyStrip text) = false →
      standalone_code_match (pyStrip text) = false →
      tariff_desc_split (pyStrip text) = some grp →
      index_dots_match (pyStrip grp) = false →
      index_refs_match (pyStrip grp) = false →
      (is_tariff_code text = true ↔ 10 < (pyStrip grp).length)) ∧
    is_tariff_code "1234 abcdefghij" = false ∧
    is_tariff_code "1234 abcdefghijk" = true := by
  refine ⟨?_, by decide, by decide⟩
  intro text grp h1 h2 h3 h4 h5
  unfold is_tariff_code
  simp only [h1, h2, h3, h4, h5, Bool.false_eq_true, if_false]
  exact decide_eq_true_iff

/-- C7 witness: a code line with a long description is accepted by the
strict-greater-than-10 rule. -/
theorem claim_C7_witness :
    is_tariff_code "8540 Complete History and Physical Examination" = true :=
  (claim_C7.1 "8540 Complete History and Physical Examination"
    "Complete History and Physical Examination"
    (by decide) (by decide) (by decide) (by decide) (by decide)).mpr
    (by decide)

/-- C8: code extraction and marker formatting round-trip on the two
specified examples: the described line yields code `8540` with both
flags false and marker `«CODE:8540»`, and the standalone `~0171*`
yields code `0171` with both flags true and marker `«CODE:~0171*»`. -/
theorem claim_C8 :
    extract_code_info "8540 Complete History and Physical Examination" =
      some { code := "8540", is_provisional := false, is_asterisked := false,
             full_match := "8540 " } ∧
    Option.map
      (fun ci => format_code_marker ci.code ci.is_provisional ci.is_asterisked)
      (extract_code_info "8540 Complete History and Physical Examination") =
      some "«CODE:8540»" ∧
    extract_code_info "~0171*" =
      some { code := "0171", is_provisional := true, is_asterisked := true,
             full_match := "~0171*" } ∧
    Option.map
      (fun ci => format_code_marker ci.code ci.is_provisional ci.is_asterisked)
      (extract_code_info "~0171*") = some "«CODE:~0171*»" := by
  refine ⟨by decide, by decide, by decide, by decide⟩

/-- C9: each output line increments at most one of the five tier
counters (the first matching marker prefix in the order L1, L2, L3,
L4, CODE), while for a CODE-counted line the provisional and
asterisked sub-counters are two independent substring tests, so one
marker carrying both glyphs is counted once in each. -/
theorem claim_C9 :
    (∀ (s : MarkStats) (line : String),
      (stats_step s line).sL1 + (stats_step s line).sL2 +
        (stats_step s line).sL3 + (stats_step s line).sL4 +
        (stats_step s line).sCODE ≤
      s.sL1 + s.sL2 + s.sL3 + s.sL4 + s.sCODE + 1) ∧
    (∀ (s : MarkStats) (line : String),
      strContains line "«L1:" = true →
      stats_step s line = { s with sL1 := s.sL1 + 1 }) ∧
    (∀ (s : MarkStats) (line : String),
      strContains line "«L1:" = false → strContains line "«L2:" = false →
      strContains line "«L3:" = false → strContains line "«L4:" = false →
      strContains line "«CODE:" = true →
      stats_step s line =
        { s with sCODE := s.sCODE + 1,
                 provisional := s.provisional +
                   (if strContains line "«CODE:~" then 1 else 0),
                 asterisked := s.asterisked +
                   (if strContains line "*»" then 1 else 0) }) ∧
    (∀ s : MarkStats, stats_step s "«CODE:~0171*»" =
      { s with sCODE := s.sCODE + 1, provisional := s.provisional + 1,
               asterisked := s.asterisked + 1 }) := by
  refine ⟨?_, ?_, ?_, ?_⟩
  · intro s line
    unfold stats_step
    by_cases h1 : strContains line "«L1:" = true
    · simp only [h1, if_true]
      omega
    · by_cases h2 : strContains line "«L2:" = true
      · simp [h1, h2]
        omega
      · by_cases h3 : strContains line "«L3:" = true
        · simp [h1, h2, h3]
          omega
        · by_cases h4 : strContains line "«L4:" = true
          · simp [h1, h2, h3, h4]
            omega
          · by_cases h5 : strContains line "«CODE:" = true
            · by_cases h6 : strContains line "«CODE:~" = true
              · by_cases h7 : strContains line "*»" = true
                · simp [h1, h2, h3, h4, h5, h6, h7]
                  omega
                · simp [h1, h2, h3, h4, h5, h6, h7]
                  omega
              · by_cases h7 : strContains line "*»" = true
                · simp [h1, h2, h3, h4, h5, h6, h7]
                  omega
                · simp [h1, h2, h3, h4, h5, h6, h7]
                  omega
            · simp [h1, h2, h3, h4, h5]
  · intro s line h1
    unfold stats_step
    simp [h1]
  · intro s line h1 h2 h3 h4 h5
    unfold stats_step
    by_cases h6 : strContains line "«CODE:~" = true
    · by_cases h7 : strContains line "*»" = true
      · simp [h1, h2, h3, h4, h5, h6, h7]
      · simp [h1, h2, h3, h4, h5, h6, h7]
    · by_cases h7 : strContains line "*»" = true
      · simp [h1, h2, h3, h4, h5, h6, h7]
      · simp [h1, h2, h3, h4, h5, h6, h7]
  · intro s
    unfold stats_step
    have h1 : strContains "«CODE:~0171*»" "«L1:" = false := by decide
    have h2 : strContains "«CODE:~0171*»" "«L2:" = false := by decide
    have h3 : strContains "«CODE:~0171*»" "«L3:" = false := by decide
    have h4 : strContains "«CODE:~0171*»" "«L4:" = false := by decide
    have h5 : strContains "«CODE:~0171*»" "«CODE:" = true := by decide
    have h6 : strContains "«CODE:~0171*»" "«CODE:~" = true := by decide
    have h7 : strContains "«CODE:~0171*»" "*»" = true := by decide
    simp [h1, h2, h3, h4, h5, h6, h7]

/-- C9 witness: the double-glyph marker increments CODE, provisional
and asterisked, and nothing else, from the all-zero statistics. -/
theorem claim_C9_witness :
    stats_step initMarkStats "«CODE:~0171*»" =
    { initMarkStats with sCODE := 1, provisional := 1, asterisked := 1 } := by
  have h := claim_C9.2.2.1 initMarkStats "«CODE:~0171*»"
    (by decide) (by decide) (by decide) (by decide) (by decide)
  simpa using h

/-- C4 counterexample: on a present configuration file with invalid
or unreadable data, `load_config` does not return the built-in
default configuration — the exception propagates (and `main` invokes
`load_config` outside its `try` block), so a configuration problem is
fatal, contrary to the claim. -/
theorem claim_C4_counter :
    load_config (ConfigSource.file ConfigData.malformed) =
      Except.error "configuration data is invalid or unreadable" ∧
    load_config (ConfigSource.file ConfigData.malformed) ≠
      Except.ok defaultMarkerConfig :=
  ⟨rfl, fun h => Except.noConfusion h⟩

/-- C4 amended: `load_config` returns the built-in default only when
no configuration file is available (no path given, or the path does
not exist); when the file exists, well-formed data is returned as
given, and invalid or unreadable data raises — the error propagates
out of `load_config` uncaught. -/
theorem claim_C4_amended :
    load_config ConfigSource.missing = Except.ok defaultMarkerConfig ∧
    (∀ c : MarkerConfig,
      load_config (ConfigSource.file (ConfigData.ok c)) = Except.ok c) ∧
    (∃ e : String,
      load_config (ConfigSource.file ConfigData.malformed) = Except.error e) :=
  ⟨rfl, fun _ => rfl, ⟨"configuration data is invalid or unreadable", rfl⟩⟩
